import Mathlib

/-
Verification development for the elife-main administrative application.

The development shallowly embeds the two logic cores of the repository:
the verification/scoring workflow (badge classification in
src/components/dashboard/RegistrationsDialog.tsx, the scoring engine of
the verification dialog, and the SQL schema constraints of
supabase/migrations/20260203091254) and the hierarchical agent rollup
(calculateTotalCustomers in the AgentDetailsPanel component).

Machine numbers of the TypeScript source (scores, percentages) are
modelled as rationals; counts as naturals; nullable fields as Option;
fallible operations as Except.
-/

namespace Elife

/-- A program row, as selected in RegistrationsDialog.tsx (fields
id, name, verification_enabled of the programs table). -/
structure Program where
  id : String
  name : String
  verification_enabled : Bool
deriving Repr, DecidableEq

/-- The reserved fixed-field sub-map of a registration answer record
(answers._fixed in RegistrationsDialog.tsx): name, mobile, panchayath
and ward data captured at submission. Every field is nullable, as the
source reads them through optional chaining. -/
structure FixedAnswers where
  name : Option String
  mobile : Option String
  panchayath_id : Option String
  panchayath_name : Option String
  ward : Option String
deriving Repr, DecidableEq

/-- The answers record of a registration: a free-form map keyed by
question identifier plus the reserved _fixed sub-map. Only the _fixed
part is consulted by the dashboard code under verification here. -/
structure Answers where
  _fixed : Option FixedAnswers
deriving Repr, DecidableEq

/-- A program_registrations row as typed in RegistrationsDialog.tsx
(interface Registration, lines 39-51): verification fields are nullable
numerics, created_at is modelled as a millisecond timestamp. -/
structure Registration where
  id : String
  program_id : String
  answers : Option Answers
  created_at : Nat
  verification_status : String
  percentage : Option ℚ
  total_score : Option ℚ
  max_score : Option ℚ
  verification_scores : Option (List (String × ℚ))
  verified_at : Option Nat
  verified_by : Option String
deriving Repr, DecidableEq

/-- The value rendered by getVerificationBadge: either the Pending badge
or the verified badge carrying the displayed percentage and the CSS
color class chosen by the inline threshold rule. -/
inductive VerificationBadge where
  | pending
  | verified (percentage : ℚ) (colorClass : String)
deriving Repr, DecidableEq

/-- getVerificationBadge from RegistrationsDialog.tsx lines 191-218:
looks up the registration program; returns null unless the program
exists and has verification_enabled; for a verified registration it
substitutes 0 for a null percentage and picks the badge color by the
inline rule at least 70 gives emerald, at least 40 gives amber,
otherwise destructive; otherwise it shows the Pending badge. -/
def getVerificationBadge (programs : List Program) (reg : Registration) :
    Option VerificationBadge :=
  match programs.find? (fun p => p.id == reg.program_id) with
  | none => none
  | some program =>
    if !program.verification_enabled then none
    else if reg.verification_status == "verified" then
      let percentage := reg.percentage.getD 0
      some (.verified percentage
        (if percentage ≥ 70 then "bg-emerald-600"
         else if percentage ≥ 40 then "bg-amber-600"
         else "bg-destructive"))
    else some .pending

/-- The verify action of RegistrationsDialog.tsx lines 366-384: the
Star button invoking handleVerify is rendered exactly when the
registration program is found and has verification_enabled. -/
def showVerifyButton (programs : List Program) (reg : Registration) : Bool :=
  match programs.find? (fun p => p.id == reg.program_id) with
  | none => false
  | some program => program.verification_enabled

/-- Default of programs.verification_enabled, from migration
20260203091254: ADD COLUMN verification_enabled boolean NOT NULL
DEFAULT false. -/
def programs_verification_enabled_default : Bool := false

/-- Presentation tier of the spec contract classify. -/
inductive Tier where
  | High
  | Medium
  | Low
deriving Repr, DecidableEq

/-- Modelled from the spec (contract classify, section 4.1): maps a
percentage into a presentation tier, at least 70 High, at least 40
Medium, else Low. Stated from the spec wording so that the inline rule
of getVerificationBadge can be compared against it. -/
def classify (percentage : ℚ) : Tier :=
  if percentage ≥ 70 then .High
  else if percentage ≥ 40 then .Medium
  else .Low

/-- CSS color class the dashboard associates with each tier. -/
def tierColor : Tier → String
  | .High => "bg-emerald-600"
  | .Medium => "bg-amber-600"
  | .Low => "bg-destructive"

/-- C1: for every percentage value, the classification used to display a
verified registration maps it to a tier by exactly the rule at least 70
High, else at least 40 Medium, else Low: the badge produced for any
verified registration of an enabled program carries the color of
classify applied to the displayed percentage; and at the boundaries
39.9 is Low, 40.0 is Medium, 69.9 is Medium, 70.0 is High. -/
theorem getVerificationBadge_classifies (programs : List Program)
    (reg : Registration) (program : Program)
    (hfind : programs.find? (fun p => p.id == reg.program_id) = some program)
    (hen : program.verification_enabled = true)
    (hst : reg.verification_status = "verified") :
    getVerificationBadge programs reg =
      some (.verified (reg.percentage.getD 0)
        (tierColor (classify (reg.percentage.getD 0))))
    ∧ classify (399/10) = .Low ∧ classify 40 = .Medium
    ∧ classify (699/10) = .Medium ∧ classify 70 = .High := by
  refine ⟨?_, by norm_num [classify], by norm_num [classify],
    by norm_num [classify], by norm_num [classify]⟩
  simp only [getVerificationBadge, hfind, hen, hst, beq_self_eq_true, if_true,
    Bool.not_true, Bool.false_eq_true, if_false]
  unfold classify tierColor
  split
  · simp
  · split <;> simp

/-- A sample program with verification enabled, used by witnesses. -/
def sampleProgram : Program :=
  { id := "prog-1", name := "Sample Program", verification_enabled := true }

/-- A sample verified registration with percentage 55, used by witnesses. -/
def sampleVerifiedReg : Registration :=
  { id := "reg-1", program_id := "prog-1", answers := none,
    created_at := 1000, verification_status := "verified",
    percentage := some 55, total_score := some 11, max_score := some 20,
    verification_scores := none, verified_at := some 2000,
    verified_by := some "admin-1" }

/-- Witness for C1 at a concrete verified registration with 55 percent. -/
theorem getVerificationBadge_classifies_witness :
    getVerificationBadge [sampleProgram] sampleVerifiedReg =
      some (.verified ((sampleVerifiedReg).percentage.getD 0)
        (tierColor (classify ((sampleVerifiedReg).percentage.getD 0))))
    ∧ classify (399/10) = .Low ∧ classify 40 = .Medium
    ∧ classify (699/10) = .Medium ∧ classify 70 = .High :=
  getVerificationBadge_classifies [sampleProgram] sampleVerifiedReg
    sampleProgram (by rfl) (by rfl) (by rfl)

/-- C7: verification_enabled defaults to false per the migration, and it
gates the scoring UI: for a registration whose program is found with
verification_enabled false, getVerificationBadge returns none and the
verify action is not offered; conversely a badge or a verify button is
produced only when the program has verification_enabled true. -/
theorem verification_enabled_gates (programs : List Program)
    (reg : Registration) (program : Program)
    (hfind : programs.find? (fun p => p.id == reg.program_id) = some program) :
    programs_verification_enabled_default = false
    ∧ (program.verification_enabled = false →
        getVerificationBadge programs reg = none
        ∧ showVerifyButton programs reg = false)
    ∧ (getVerificationBadge programs reg ≠ none →
        program.verification_enabled = true)
    ∧ (showVerifyButton programs reg = true →
        program.verification_enabled = true) := by
  refine ⟨rfl, ?_, ?_, ?_⟩
  · intro hdis
    constructor
    · simp [getVerificationBadge, hfind, hdis]
    · simp [showVerifyButton, hfind, hdis]
  · intro hbadge
    by_contra hne
    have hdis : program.verification_enabled = false := by
      cases h : program.verification_enabled
      · rfl
      · exact absurd h hne
    exact hbadge (by simp [getVerificationBadge, hfind, hdis])
  · intro hbtn
    simpa [showVerifyButton, hfind] using hbtn

/-- A sample program with verification disabled, used by witnesses. -/
def sampleDisabledProgram : Program :=
  { id := "prog-2", name := "Plain Program", verification_enabled := false }

/-- A sample pending registration of the disabled program. -/
def samplePendingReg : Registration :=
  { id := "reg-2", program_id := "prog-2", answers := none,
    created_at := 500, verification_status := "pending",
    percentage := none, total_score := none, max_score := none,
    verification_scores := none, verified_at := none, verified_by := none }

/-- Witness for C7 at a concrete disabled program. -/
theorem verification_enabled_gates_witness :
    programs_verification_enabled_default = false
    ∧ (sampleDisabledProgram.verification_enabled = false →
        getVerificationBadge [sampleDisabledProgram] samplePendingReg = none
        ∧ showVerifyButton [sampleDisabledProgram] samplePendingReg = false)
    ∧ (getVerificationBadge [sampleDisabledProgram] samplePendingReg ≠ none →
        sampleDisabledProgram.verification_enabled = true)
    ∧ (showVerifyButton [sampleDisabledProgram] samplePendingReg = true →
        sampleDisabledProgram.verification_enabled = true) :=
  verification_enabled_gates [sampleDisabledProgram] samplePendingReg
    sampleDisabledProgram (by rfl)

/-- C10: a verified registration of a verification-enabled program whose
percentage field is null still gets a badge (the computation is total):
the missing percentage is replaced by 0, so the badge shows value 0 with
the below-40 destructive styling. -/
theorem getVerificationBadge_null_percentage (programs : List Program)
    (reg : Registration) (program : Program)
    (hfind : programs.find? (fun p => p.id == reg.program_id) = some program)
    (hen : program.verification_enabled = true)
    (hst : reg.verification_status = "verified")
    (hp : reg.percentage = none) :
    getVerificationBadge programs reg =
      some (.verified 0 "bg-destructive") := by
  simp only [getVerificationBadge, hfind, hen, hst, hp, beq_self_eq_true,
    if_true, Bool.not_true, Bool.false_eq_true, if_false, Option.getD_none]
  norm_num

/-- A verified registration whose percentage field is null. -/
def sampleNullPctReg : Registration :=
  { id := "reg-3", program_id := "prog-1", answers := none,
    created_at := 700, verification_status := "verified",
    percentage := none, total_score := none, max_score := none,
    verification_scores := none, verified_at := some 800,
    verified_by := some "admin-1" }

/-- Witness for C10 at a concrete verified registration with null
percentage. -/
theorem getVerificationBadge_null_percentage_witness :
    getVerificationBadge [sampleProgram] sampleNullPctReg =
      some (.verified 0 "bg-destructive") :=
  getVerificationBadge_null_percentage [sampleProgram] sampleNullPctReg
    sampleProgram (by rfl) (by rfl) (by rfl) (by rfl)

/-- The optional-chain read answers._fixed.panchayath_id used by the
panchayath filter in fetchRegistrations (RegistrationsDialog.tsx line
154). -/
def fixedPanchayathId (reg : Registration) : Option String :=
  (reg.answers.bind (fun a => a._fixed)).bind (fun f => f.panchayath_id)

/-- Descending comparator of fetchRegistrations (RegistrationsDialog.tsx
lines 159-161): registration a precedes b when b.created_at is at most
a.created_at, the order induced by the JS comparator
b.getTime minus a.getTime. -/
def createdAtDesc (a b : Registration) : Bool :=
  decide (b.created_at ≤ a.created_at)

/-- The pure list transform of fetchRegistrations
(RegistrationsDialog.tsx lines 151-163): the fetched registrations are
filtered by answers._fixed.panchayath_id when a panchayath filter id is
supplied, then sorted by created_at descending. -/
def fetchRegistrationsView (filterPanchayathId : Option String)
    (regs : List Registration) : List Registration :=
  let filtered := match filterPanchayathId with
    | some fid => regs.filter (fun r => fixedPanchayathId r == some fid)
    | none => regs
  filtered.mergeSort createdAtDesc

/-- The comparator is transitive. -/
theorem createdAtDesc_trans (a b c : Registration)
    (hab : createdAtDesc a b = true) (hbc : createdAtDesc b c = true) :
    createdAtDesc a c = true := by
  simp only [createdAtDesc, decide_eq_true_eq] at *
  omega

/-- The comparator is total. -/
theorem createdAtDesc_total (a b : Registration) :
    (createdAtDesc a b || createdAtDesc b a) = true := by
  simp only [createdAtDesc, Bool.or_eq_true, decide_eq_true_eq]
  omega

/-- C9: the registration list produced by fetchRegistrations is sorted
by created_at in descending order, and when a panchayath filter id is
supplied it contains exactly the fetched registrations whose
answers._fixed.panchayath_id equals the filter id. -/
theorem fetchRegistrationsView_sorted_and_filtered (fid : String)
    (regs : List Registration) :
    List.Sorted (fun a b => b.created_at ≤ a.created_at)
      (fetchRegistrationsView (some fid) regs)
    ∧ (∀ r, r ∈ fetchRegistrationsView (some fid) regs ↔
        r ∈ regs ∧ fixedPanchayathId r = some fid)
    ∧ List.Sorted (fun a b => b.created_at ≤ a.created_at)
      (fetchRegistrationsView none regs) := by
  have hsorted : ∀ l : List Registration,
      List.Sorted (fun a b => b.created_at ≤ a.created_at)
        (l.mergeSort createdAtDesc) := by
    intro l
    have h := List.sorted_mergeSort
      (fun a b c => createdAtDesc_trans a b c)
      (fun a b => createdAtDesc_total a b) l
    exact h.imp (fun hx => by
      simpa [createdAtDesc, decide_eq_true_eq] using hx)
  refine ⟨hsorted _, ?_, hsorted _⟩
  intro r
  simp only [fetchRegistrationsView, List.mem_mergeSort, List.mem_filter,
    beq_iff_eq]

/-- The four agent role levels of the Pennyekart hierarchy, ordered
team_leader, coordinator, group_leader, pro (Role tree in the
glossary; AgentRole of usePennyekartAgents). -/
inductive AgentRole where
  | team_leader
  | coordinator
  | group_leader
  | pro
deriving Repr, DecidableEq, BEq

/-- A PennyekartAgent record as consumed by AgentDetailsPanel: identity,
name, mobile, role, nullable parent reference and the stored customer
count (meaningful at pro nodes). -/
structure Agent where
  id : String
  name : String
  mobile : String
  role : AgentRole
  parent_agent_id : Option String
  customer_count : Nat
deriving Repr, DecidableEq

/-- Direct children of an agent, as computed inside
calculateTotalCustomers: the agents of the full list whose
parent_agent_id equals the id of the node. -/
def childrenOf (allAgents : List Agent) (a : Agent) : List Agent :=
  allAgents.filter (fun c => c.parent_agent_id == some a.id)

/-- calculateTotalCustomers from the AgentDetailsPanel component: for a
pro node it returns the stored customer_count; otherwise it reduces over
the direct children, summing the recursive totals starting from 0. The
TypeScript recursion is unguarded; the embedding adds an explicit fuel
argument, returning none when the fuel is exhausted, so that a run of
the source recursion that terminates within depth d corresponds to the
embedding succeeding at fuel d, and source divergence corresponds to the
embedding returning none at every fuel. -/
def calculateTotalCustomers (allAgents : List Agent) : Nat → Agent → Option Nat
  | 0, _ => none
  | fuel + 1, a =>
    if a.role = AgentRole.pro then some a.customer_count
    else (childrenOf allAgents a).foldl
      (fun sum child =>
        match sum with
        | none => none
        | some s =>
          match calculateTotalCustomers allAgents fuel child with
          | none => none
          | some v => some (s + v))
      (some 0)

/-- The sum of the recursive totals of a list of agents at a given fuel:
defined so that the non-pro branch of calculateTotalCustomers can be
stated as the sum of the totals of the direct children. -/
def sumTotals (allAgents : List Agent) (fuel : Nat) : List Agent → Option Nat
  | [] => some 0
  | c :: cs =>
    match calculateTotalCustomers allAgents fuel c, sumTotals allAgents fuel cs with
    | some v, some s => some (v + s)
    | _, _ => none

/-- The reduce of calculateTotalCustomers propagates a failed (none)
accumulator. -/
theorem calculateTotalCustomers_foldl_none (allAgents : List Agent)
    (fuel : Nat) (l : List Agent) :
    l.foldl
      (fun sum child =>
        match sum with
        | none => none
        | some s =>
          match calculateTotalCustomers allAgents fuel child with
          | none => none
          | some v => some (s + v))
      none = none := by
  induction l with
  | nil => rfl
  | cons c cs ih => exact ih

/-- The reduce of calculateTotalCustomers from a defined accumulator
equals the accumulator plus the sum of the recursive totals. -/
theorem calculateTotalCustomers_foldl_eq_sumTotals (allAgents : List Agent)
    (fuel : Nat) (l : List Agent) :
    ∀ acc : Nat,
    l.foldl
      (fun sum child =>
        match sum with
        | none => none
        | some s =>
          match calculateTotalCustomers allAgents fuel child with
          | none => none
          | some v => some (s + v))
      (some acc) =
      (sumTotals allAgents fuel l).map (fun s => acc + s) := by
  induction l with
  | nil => intro acc; rfl
  | cons c cs ih =>
    intro acc
    rcases h : calculateTotalCustomers allAgents fuel c with _ | v
    · simp only [List.foldl_cons, h, sumTotals,
        calculateTotalCustomers_foldl_none]
      rfl
    · rcases hcs : sumTotals allAgents fuel cs with _ | s
      · have := ih (acc + v)
        rw [hcs] at this
        simp only [List.foldl_cons, h, sumTotals, hcs]
        simpa using this
      · have := ih (acc + v)
        rw [hcs] at this
        simp only [List.foldl_cons, h, sumTotals, hcs]
        simp only [Option.map_some'] at this ⊢
        rw [this]
        congr 1
        omega

/-- Unfolding of calculateTotalCustomers at positive fuel: a pro node
yields its customer_count, any other node yields the sum of the
recursive totals of its direct children. -/
theorem calculateTotalCustomers_succ (allAgents : List Agent) (fuel : Nat)
    (a : Agent) :
    calculateTotalCustomers allAgents (fuel + 1) a =
      if a.role = AgentRole.pro then some a.customer_count
      else sumTotals allAgents fuel (childrenOf allAgents a) := by
  by_cases hr : a.role = AgentRole.pro
  · simp [calculateTotalCustomers, hr]
  · simp only [calculateTotalCustomers, hr, if_false]
    rw [calculateTotalCustomers_foldl_eq_sumTotals]
    rcases sumTotals allAgents fuel (childrenOf allAgents a) with _ | s <;> simp

/-- C2: calculateTotalCustomers of a pro node is its own
customer_count; of any other node it is the sum of the recursive totals
over its direct children, the direct children being exactly the agents
of the list whose parent_agent_id equals the id of the node; hence a pro
node with customer_count 0 and a non-pro node without children both
total 0. Stated at positive fuel, one unit of fuel per recursion
level. -/
theorem calculateTotalCustomers_cases (allAgents : List Agent) (a : Agent)
    (fuel : Nat) :
    (∀ c, c ∈ childrenOf allAgents a ↔
      c ∈ allAgents ∧ c.parent_agent_id = some a.id)
    ∧ (a.role = AgentRole.pro →
        calculateTotalCustomers allAgents (fuel + 1) a = some a.customer_count)
    ∧ (a.role ≠ AgentRole.pro →
        calculateTotalCustomers allAgents (fuel + 1) a =
          sumTotals allAgents fuel (childrenOf allAgents a))
    ∧ (a.role = AgentRole.pro → a.customer_count = 0 →
        calculateTotalCustomers allAgents (fuel + 1) a = some 0)
    ∧ (a.role ≠ AgentRole.pro → childrenOf allAgents a = [] →
        calculateTotalCustomers allAgents (fuel + 1) a = some 0) := by
  refine ⟨?_, ?_, ?_, ?_, ?_⟩
  · intro c
    simp [childrenOf, List.mem_filter, beq_iff_eq]
  · intro hr
    rw [calculateTotalCustomers_succ, if_pos hr]
  · intro hr
    rw [calculateTotalCustomers_succ, if_neg hr]
  · intro hr hc
    rw [calculateTotalCustomers_succ, if_pos hr, hc]
  · intro hr hc
    rw [calculateTotalCustomers_succ, if_neg hr, hc]
    rfl

/-- A pro agent with no recorded customers. -/
def proZeroAgent : Agent :=
  { id := "p0", name := "P0", mobile := "100", role := .pro,
    parent_agent_id := none, customer_count := 0 }

/-- A group leader without children. -/
def loneGroupLeader : Agent :=
  { id := "g0", name := "G0", mobile := "101", role := .group_leader,
    parent_agent_id := none, customer_count := 0 }

/-- Witness for C2: both zero cases at concrete agents, through the
general theorem. -/
theorem calculateTotalCustomers_cases_witness :
    calculateTotalCustomers [proZeroAgent, loneGroupLeader] 4 proZeroAgent
      = some 0
    ∧ calculateTotalCustomers [proZeroAgent, loneGroupLeader] 4 loneGroupLeader
      = some 0 := by
  refine ⟨?_, ?_⟩
  · exact (calculateTotalCustomers_cases [proZeroAgent, loneGroupLeader]
      proZeroAgent 3).2.2.2.1 (by decide) (by decide)
  · exact (calculateTotalCustomers_cases [proZeroAgent, loneGroupLeader]
      loneGroupLeader 3).2.2.2.2 (by decide) (by decide)

/-- A coordinator whose parent reference points at the group leader
below it, forming corrupted cyclic data. -/
def cycleAgentB : Agent :=
  { id := "b", name := "B", mobile := "200", role := .coordinator,
    parent_agent_id := some "c", customer_count := 0 }

/-- A group leader whose parent reference points back at the coordinator,
closing the cycle. -/
def cycleAgentC : Agent :=
  { id := "c", name := "C", mobile := "201", role := .group_leader,
    parent_agent_id := some "b", customer_count := 0 }

/-- The corrupted two-agent cycle. -/
def cycleAgents : List Agent := [cycleAgentB, cycleAgentC]

/-- The fuel embedding never succeeds on this node at any fuel: the
source recursion, which carries no depth bound, does not terminate on
this input. -/
def DivergesOn (allAgents : List Agent) (a : Agent) : Prop :=
  ∀ fuel, calculateTotalCustomers allAgents fuel a = none

/-- C3 counterexample: on the concrete cyclic agent set the rollup
recursion produces no result at any recursion depth, hence the source
function neither terminates nor fails with a CycleDetectedError (the
source has no such guard at all): the claim is false on this input. -/
theorem calculateTotalCustomers_cycle_diverges :
    DivergesOn cycleAgents cycleAgentB ∧ DivergesOn cycleAgents cycleAgentC := by
  have key : ∀ fuel,
      calculateTotalCustomers cycleAgents fuel cycleAgentB = none
      ∧ calculateTotalCustomers cycleAgents fuel cycleAgentC = none := by
    intro fuel
    induction fuel with
    | zero => exact ⟨rfl, rfl⟩
    | succ n ih =>
      constructor
      · rw [calculateTotalCustomers_succ, if_neg (by decide)]
        have hch : childrenOf cycleAgents cycleAgentB = [cycleAgentC] := by
          decide
        rw [hch]
        simp [sumTotals, ih.2]
      · rw [calculateTotalCustomers_succ, if_neg (by decide)]
        have hch : childrenOf cycleAgents cycleAgentC = [cycleAgentB] := by
          decide
        rw [hch]
        simp [sumTotals, ih.1]
  exact ⟨fun fuel => (key fuel).1, fun fuel => (key fuel).2⟩

/-- Modelled from the spec: getChildRole of the usePennyekartAgents hook
(the hook is not among the provided sources), following the glossary
role tree team_leader over coordinator over group_leader over pro, in
which the children of each level are exactly the next level down and pro
has no child level. -/
def getChildRole : AgentRole → Option AgentRole
  | .team_leader => some .coordinator
  | .coordinator => some .group_leader
  | .group_leader => some .pro
  | .pro => none

/-- Number of levels from a role down to pro, both ends included; at
most 4, the number of role levels. -/
def roleDepth : AgentRole → Nat
  | .pro => 1
  | .group_leader => 2
  | .coordinator => 3
  | .team_leader => 4

/-- The role-adjacency invariant of the agent forest (section 3 of the
spec): the role of every child is the immediate child level of the role
of its parent. -/
def RoleAdjacent (allAgents : List Agent) : Prop :=
  ∀ c ∈ allAgents, ∀ p ∈ allAgents,
    c.parent_agent_id = some p.id → getChildRole p.role = some c.role

/-- If every agent of a list evaluates to a defined total, so does the
sum of the totals of the list. -/
theorem sumTotals_eq_some (allAgents : List Agent) (fuel : Nat) :
    ∀ l : List Agent,
    (∀ c ∈ l, ∃ v, calculateTotalCustomers allAgents fuel c = some v) →
    ∃ s, sumTotals allAgents fuel l = some s := by
  intro l
  induction l with
  | nil => exact fun _ => ⟨0, rfl⟩
  | cons c cs ih =>
    intro h
    obtain ⟨v, hv⟩ := h c (by simp)
    obtain ⟨s, hs⟩ := ih (fun d hd => h d (by simp [hd]))
    exact ⟨v + s, by simp [sumTotals, hv, hs]⟩

/-- Under the role-adjacency invariant the recursion depth is bounded by
the role depth of the node: fuel equal to the role depth already yields
a defined total. -/
theorem calculateTotalCustomers_depth_bound (allAgents : List Agent)
    (hinv : RoleAdjacent allAgents) :
    ∀ fuel, ∀ a ∈ allAgents, roleDepth a.role ≤ fuel →
    ∃ v, calculateTotalCustomers allAgents fuel a = some v := by
  intro fuel
  induction fuel with
  | zero =>
    intro a _ hd
    exfalso
    cases hra : a.role <;> rw [hra] at hd <;> simp [roleDepth] at hd
  | succ n ih =>
    intro a ha hd
    by_cases hr : a.role = AgentRole.pro
    · exact ⟨a.customer_count, by rw [calculateTotalCustomers_succ, if_pos hr]⟩
    · have hch : ∀ c ∈ childrenOf allAgents a,
          c ∈ allAgents ∧ roleDepth c.role ≤ n := by
        intro c hc
        have hcm : c ∈ allAgents ∧ c.parent_agent_id = some a.id := by
          simpa [childrenOf, List.mem_filter, beq_iff_eq] using hc
        have hadj := hinv c hcm.1 a ha hcm.2
        refine ⟨hcm.1, ?_⟩
        have hstep : roleDepth c.role + 1 = roleDepth a.role := by
          cases hra : a.role <;> rw [hra] at hadj <;>
            simp [getChildRole] at hadj <;>
            simp [roleDepth, ← hadj, hra]
        omega
      obtain ⟨s, hs⟩ := sumTotals_eq_some allAgents n (childrenOf allAgents a)
        (fun c hc => ih c (hch c hc).1 (hch c hc).2)
      exact ⟨s, by rw [calculateTotalCustomers_succ, if_neg hr, hs]⟩

/-- C3 (amended): the source recursion has no cycle guard and no
CycleDetectedError, and on cyclic data it does not terminate (see the
counterexample); what holds is that on data satisfying the
role-adjacency invariant the recursion depth is bounded by the number of
role levels: fuel 4 yields a defined total for every agent of the
list. -/
theorem calculateTotalCustomers_terminates_acyclic (allAgents : List Agent)
    (a : Agent) (hinv : RoleAdjacent allAgents) (ha : a ∈ allAgents) :
    ∃ v, calculateTotalCustomers allAgents 4 a = some v := by
  apply calculateTotalCustomers_depth_bound allAgents hinv 4 a ha
  cases hra : a.role <;> simp [roleDepth]

/-- Team leader of the sample tree of section 8 of the spec. -/
def agentT : Agent :=
  { id := "t", name := "T", mobile := "300", role := .team_leader,
    parent_agent_id := none, customer_count := 0 }

/-- Coordinator of the sample tree, child of the team leader. -/
def agentC : Agent :=
  { id := "c1", name := "C", mobile := "301", role := .coordinator,
    parent_agent_id := some "t", customer_count := 0 }

/-- Group leader of the sample tree, child of the coordinator. -/
def agentG : Agent :=
  { id := "g1", name := "G", mobile := "302", role := .group_leader,
    parent_agent_id := some "c1", customer_count := 0 }

/-- First pro of the sample tree with 5 customers. -/
def agentP1 : Agent :=
  { id := "p1", name := "P1", mobile := "303", role := .pro,
    parent_agent_id := some "g1", customer_count := 5 }

/-- Second pro of the sample tree with 3 customers. -/
def agentP2 : Agent :=
  { id := "p2", name := "P2", mobile := "304", role := .pro,
    parent_agent_id := some "g1", customer_count := 3 }

/-- The 4-level sample tree of section 8 of the spec. -/
def treeAgents : List Agent := [agentT, agentC, agentG, agentP1, agentP2]

/-- Witness for C3 (amended) at the concrete 4-level sample tree, whose
root total is moreover the expected 8. -/
theorem calculateTotalCustomers_terminates_acyclic_witness :
    RoleAdjacent treeAgents
    ∧ (∃ v, calculateTotalCustomers treeAgents 4 agentT = some v)
    ∧ calculateTotalCustomers treeAgents 4 agentT = some 8 := by
  have hadj : RoleAdjacent treeAgents := by
    unfold RoleAdjacent
    decide
  refine ⟨hadj, ?_, by decide⟩
  exact calculateTotalCustomers_terminates_acyclic treeAgents agentT
    hadj (by decide)

/-- A program_form_questions row as used by the scoring rubric: stable
identifier and label; the rubric dimensions are the questions in the
given order. -/
structure FormQuestion where
  id : String
  label : String
deriving Repr, DecidableEq

/-- Supplied score of one question inside a score map keyed by question
identifier. -/
def lookupScore (scores : List (String × ℚ)) (qid : String) : Option ℚ :=
  (scores.find? (fun e => e.1 == qid)).map (fun e => e.2)

/-- A supplied score is valid when it is an integer between 0 and 10. -/
def validScore (s : ℚ) : Bool :=
  s.den == 1 && decide (0 ≤ s) && decide (s ≤ 10)

/-- Error taxonomy of the scoring engine (section 7 of the spec): an
out-of-range or non-integer score is a contract violation naming the
offending question. -/
inductive ScoreError where
  | invalidScore (questionId : String)
deriving Repr, DecidableEq

/-- The verification result produced by a successful scoring act:
verified status, the effective score map, the computed aggregates, and
the caller supplied actor and timestamp. -/
structure VerificationResult where
  verification_status : String
  verification_scores : List (String × ℚ)
  total_score : ℚ
  max_score : ℚ
  percentage : ℚ
  verified_by : String
  verified_at : Nat
deriving Repr, DecidableEq

/-- Modelled from the spec: the contract score of the ScoringEngine
(section 4.1; the RegistrationVerification component is not among the
provided sources). Validates that every supplied score is an integer
between 0 and 10, failing with InvalidScoreError naming the first
offending question before anything else is computed; treats a question
without a supplied score as 0; computes total_score as the sum of the
effective scores, max_score as 10 times the number of questions, and
percentage as 100 times total over max when max is positive and 0
otherwise. -/
def score (questions : List FormQuestion) (scores : List (String × ℚ))
    (verifier : String) (now : Nat) : Except ScoreError VerificationResult :=
  match questions.find? (fun q =>
      match lookupScore scores q.id with
      | some s => !validScore s
      | none => false) with
  | some q => .error (.invalidScore q.id)
  | none =>
    let total := (questions.map (fun q => (lookupScore scores q.id).getD 0)).sum
    let maxScore : ℚ := 10 * questions.length
    .ok
    { verification_status := "verified",
      verification_scores :=
        questions.map (fun q => (q.id, (lookupScore scores q.id).getD 0)),
      total_score := total,
      max_score := maxScore,
      percentage := if maxScore > 0 then 100 * total / maxScore else 0,
      verified_by := verifier,
      verified_at := now }

/-- Modelled from the spec: applying a verification act to a
registration (the persistVerification update of the
RegistrationVerification component, not among the provided sources): a
failed score call leaves the registration untouched, a successful one
overwrites the verification fields with the new result, the status
becoming verified together with verified_by and verified_at. -/
def verifyRegistration (reg : Registration) (questions : List FormQuestion)
    (scores : List (String × ℚ)) (verifier : String) (now : Nat) :
    Registration :=
  match score questions scores verifier now with
  | .error _ => reg
  | .ok res =>
    { reg with
      verification_status := res.verification_status,
      verification_scores := some res.verification_scores,
      total_score := some res.total_score,
      max_score := some res.max_score,
      percentage := some res.percentage,
      verified_by := some res.verified_by,
      verified_at := some res.verified_at }

/-- Fields of a successful score result: the aggregates are exactly the
sum of the effective scores, 10 times the question count, and the
guarded percentage ratio; the embedded status is verified. -/
theorem score_ok_fields (questions : List FormQuestion)
    (scores : List (String × ℚ)) (verifier : String) (now : Nat)
    (res : VerificationResult)
    (hok : score questions scores verifier now = .ok res) :
    res.total_score =
      (questions.map (fun q => (lookupScore scores q.id).getD 0)).sum
    ∧ res.max_score = 10 * questions.length
    ∧ res.percentage =
        (if res.max_score > 0 then 100 * res.total_score / res.max_score
         else 0)
    ∧ res.verification_status = "verified"
    ∧ res.verified_by = verifier ∧ res.verified_at = now := by
  rcases hfind : questions.find? (fun q =>
      match lookupScore scores q.id with
      | some s => !validScore s
      | none => false) with _ | q
  · simp only [score, hfind, Except.ok.injEq] at hok
    subst hok
    exact ⟨rfl, rfl, rfl, rfl, rfl, rfl⟩
  · simp only [score, hfind] at hok
    exact absurd hok (by simp)

/-- When every supplied score is valid the validation scan finds no
offending question and score succeeds. -/
theorem score_ok_of_all_valid (questions : List FormQuestion)
    (scores : List (String × ℚ)) (verifier : String) (now : Nat)
    (hval : ∀ q ∈ questions, ∀ s, lookupScore scores q.id = some s →
      validScore s = true) :
    ∃ res, score questions scores verifier now = .ok res := by
  have hfind : questions.find? (fun q =>
      match lookupScore scores q.id with
      | some s => !validScore s
      | none => false) = none := by
    rw [List.find?_eq_none]
    intro q hq
    rcases hs : lookupScore scores q.id with _ | s
    · simp
    · simp [hval q hq s hs]
  refine ⟨⟨"verified",
    questions.map (fun q => (q.id, (lookupScore scores q.id).getD 0)),
    (questions.map (fun q => (lookupScore scores q.id).getD 0)).sum,
    10 * questions.length,
    if (10 * (questions.length : ℚ)) > 0 then
      100 * (questions.map (fun q => (lookupScore scores q.id).getD 0)).sum
        / (10 * questions.length)
    else 0,
    verifier, now⟩, ?_⟩
  simp only [score, hfind]

/-- C4: a successful score call computes total_score as the sum of the
effective supplied scores, max_score as 10 times the number of
questions, and percentage as 100 times total over max when max is
positive and 0 otherwise; for a non-empty question set, scoring every
question 0 succeeds with percentage 0 and scoring every question 10
succeeds with percentage 100. -/
theorem score_aggregates (questions : List FormQuestion)
    (scores : List (String × ℚ)) (verifier : String) (now : Nat) :
    (∀ res, score questions scores verifier now = .ok res →
      res.total_score =
        (questions.map (fun q => (lookupScore scores q.id).getD 0)).sum
      ∧ res.max_score = 10 * questions.length
      ∧ res.percentage =
          (if res.max_score > 0 then 100 * res.total_score / res.max_score
           else 0))
    ∧ (questions ≠ [] → (∀ q ∈ questions, lookupScore scores q.id = some 0) →
        ∃ res, score questions scores verifier now = .ok res
          ∧ res.percentage = 0)
    ∧ (questions ≠ [] → (∀ q ∈ questions, lookupScore scores q.id = some 10) →
        ∃ res, score questions scores verifier now = .ok res
          ∧ res.percentage = 100) := by
  refine ⟨?_, ?_, ?_⟩
  · intro res hok
    obtain ⟨h1, h2, h3, _⟩ := score_ok_fields questions scores verifier now res hok
    exact ⟨h1, h2, h3⟩
  · intro hne hzero
    obtain ⟨res, hok⟩ := score_ok_of_all_valid questions scores verifier now
      (fun q hq s hs => by
        rw [hzero q hq] at hs
        rw [← Option.some_inj.mp hs]
        decide)
    obtain ⟨h1, h2, h3, _⟩ := score_ok_fields questions scores verifier now res hok
    have htotal : res.total_score = 0 := by
      rw [h1]
      apply List.sum_eq_zero
      intro x hx
      obtain ⟨q, hq, hxq⟩ := List.mem_map.mp hx
      rw [hzero q hq] at hxq
      simpa using hxq.symm
    refine ⟨res, hok, ?_⟩
    rw [h3, htotal]
    split <;> simp
  · intro hne hten
    obtain ⟨res, hok⟩ := score_ok_of_all_valid questions scores verifier now
      (fun q hq s hs => by
        rw [hten q hq] at hs
        rw [← Option.some_inj.mp hs]
        decide)
    obtain ⟨h1, h2, h3, _⟩ := score_ok_fields questions scores verifier now res hok
    have hlenpos : (0 : ℚ) < questions.length := by
      have : 0 < questions.length := List.length_pos.mpr hne
      exact_mod_cast this
    have htotal : res.total_score = 10 * questions.length := by
      rw [h1]
      have hmap : questions.map (fun q => (lookupScore scores q.id).getD 0) =
          questions.map (fun _ => (10 : ℚ)) := by
        apply List.map_congr_left
        intro q hq
        simp [hten q hq]
      rw [hmap]
      have hconst : ∀ l : List FormQuestion,
          (l.map (fun _ => (10 : ℚ))).sum = 10 * l.length := by
        intro l
        induction l with
        | nil => simp
        | cons r rs ih =>
          simp only [List.map_cons, List.sum_cons, List.length_cons, ih]
          push_cast
          ring
      exact hconst questions
    have hpos : (0 : ℚ) < 10 * questions.length :=
      mul_pos (by norm_num) hlenpos
    have hmaxpos : (0 : ℚ) < res.max_score := by rw [h2]; exact hpos
    refine ⟨res, hok, ?_⟩
    rw [h3, if_pos hmaxpos, htotal, h2, mul_div_assoc,
      div_self (ne_of_gt hpos), mul_one]

/-- First sample rubric question. -/
def sampleQ1 : FormQuestion := { id := "q1", label := "Quality" }

/-- Second sample rubric question. -/
def sampleQ2 : FormQuestion := { id := "q2", label := "Clarity" }

/-- Score map rating both sample questions 10. -/
def allTenScores : List (String × ℚ) := [("q1", 10), ("q2", 10)]

/-- Score map rating both sample questions 0. -/
def allZeroScores : List (String × ℚ) := [("q1", 0), ("q2", 0)]

/-- Witness for C4: on the concrete two-question rubric, scoring all 10
gives percentage 100 and scoring all 0 gives percentage 0. -/
theorem score_aggregates_witness :
    ([sampleQ1, sampleQ2] : List FormQuestion) ≠ []
    ∧ (∃ res, score [sampleQ1, sampleQ2] allTenScores "admin-1" 9 = .ok res
        ∧ res.percentage = 100)
    ∧ (∃ res, score [sampleQ1, sampleQ2] allZeroScores "admin-1" 9 = .ok res
        ∧ res.percentage = 0) := by
  refine ⟨by decide, ?_, ?_⟩
  · exact (score_aggregates [sampleQ1, sampleQ2] allTenScores "admin-1" 9).2.2
      (by decide) (by decide)
  · exact (score_aggregates [sampleQ1, sampleQ2] allZeroScores "admin-1" 9).2.1
      (by decide) (by decide)

/-- C5: a score map supplying, for the sole offending question of the
set, a value that is not an integer between 0 and 10 makes score fail
with InvalidScoreError naming that question, and the failure happens
before any mutation: the registration record, its verification_status
included, is unchanged. -/
theorem score_invalid_rejects (reg : Registration)
    (questions : List FormQuestion) (scores : List (String × ℚ))
    (verifier : String) (now : Nat) (q : FormQuestion) (s : ℚ)
    (hq : q ∈ questions) (hs : lookupScore scores q.id = some s)
    (hbad : validScore s = false)
    (honly : ∀ r ∈ questions, ∀ t, lookupScore scores r.id = some t →
      validScore t = false → r.id = q.id) :
    score questions scores verifier now = .error (.invalidScore q.id)
    ∧ verifyRegistration reg questions scores verifier now = reg
    ∧ (verifyRegistration reg questions scores verifier now).verification_status
        = reg.verification_status := by
  have herr : score questions scores verifier now =
      .error (.invalidScore q.id) := by
    rcases hfind : questions.find? (fun r =>
        match lookupScore scores r.id with
        | some t => !validScore t
        | none => false) with _ | r
    · exfalso
      rw [List.find?_eq_none] at hfind
      have := hfind q hq
      simp [hs, hbad] at this
    · have hr := List.find?_some hfind
      have hrmem := List.mem_of_find?_eq_some hfind
      rcases ht : lookupScore scores r.id with _ | t
      · rw [ht] at hr
        simp at hr
      · rw [ht] at hr
        simp only [Bool.not_eq_true'] at hr
        have hid := honly r hrmem t ht hr
        simp [score, hfind, hid]
  refine ⟨herr, ?_, ?_⟩
  · simp [verifyRegistration, herr]
  · simp [verifyRegistration, herr]

/-- Score map giving the first sample question the out-of-range value
11. -/
def invalidScores : List (String × ℚ) := [("q1", 11)]

/-- Witness for C5: scoring the one-question rubric with 11 fails naming
that question and leaves the pending registration unchanged. -/
theorem score_invalid_rejects_witness :
    score [sampleQ1] invalidScores "admin-1" 9 =
      .error (.invalidScore sampleQ1.id)
    ∧ verifyRegistration samplePendingReg [sampleQ1] invalidScores "admin-1" 9
        = samplePendingReg
    ∧ (verifyRegistration samplePendingReg [sampleQ1] invalidScores
        "admin-1" 9).verification_status
        = samplePendingReg.verification_status :=
  score_invalid_rejects samplePendingReg [sampleQ1] invalidScores "admin-1" 9
    sampleQ1 11 (by decide) (by decide) (by decide)
    (fun r hr t _ _ => by
      rw [List.mem_singleton] at hr
      rw [hr])

/-- Default of verification_status per migration 20260203091254: ADD
COLUMN verification_status text NOT NULL DEFAULT 'pending'. -/
def verification_status_default : String := "pending"

/-- Allowed values of verification_status per the check constraint
program_registrations_verification_status_check of the same
migration. -/
def verification_status_allowed (s : String) : Prop :=
  s = "pending" ∨ s = "verified"

/-- C6: verification_status ranges over pending and verified only: a new
registration starts at the default pending, a verification act either
leaves the status unchanged (on a failed validation) or sets it to
verified, the allowed set is closed under the act, there is no
transition out of verified back to pending, and a successful act
overwrites the whole verification result with the new one. -/
theorem verification_status_machine (reg : Registration)
    (questions : List FormQuestion) (scores : List (String × ℚ))
    (verifier : String) (now : Nat) :
    verification_status_default = "pending"
    ∧ verification_status_allowed verification_status_default
    ∧ ((verifyRegistration reg questions scores verifier now).verification_status
          = reg.verification_status
        ∨ (verifyRegistration reg questions scores verifier now).verification_status
          = "verified")
    ∧ (verification_status_allowed reg.verification_status →
        verification_status_allowed
          (verifyRegistration reg questions scores verifier now).verification_status)
    ∧ (reg.verification_status = "verified" →
        (verifyRegistration reg questions scores verifier now).verification_status
          = "verified")
    ∧ (∀ res, score questions scores verifier now = .ok res →
        (verifyRegistration reg questions scores verifier now).verification_status
            = "verified"
        ∧ (verifyRegistration reg questions scores verifier now).verification_scores
            = some res.verification_scores
        ∧ (verifyRegistration reg questions scores verifier now).total_score
            = some res.total_score
        ∧ (verifyRegistration reg questions scores verifier now).max_score
            = some res.max_score
        ∧ (verifyRegistration reg questions scores verifier now).percentage
            = some res.percentage
        ∧ (verifyRegistration reg questions scores verifier now).verified_by
            = some res.verified_by
        ∧ (verifyRegistration reg questions scores verifier now).verified_at
            = some res.verified_at) := by
  have hdisj :
      (verifyRegistration reg questions scores verifier now).verification_status
        = reg.verification_status
      ∨ (verifyRegistration reg questions scores verifier now).verification_status
        = "verified" := by
    rcases hsc : score questions scores verifier now with e | res
    · left
      simp [verifyRegistration, hsc]
    · right
      have hst := (score_ok_fields questions scores verifier now res hsc).2.2.2.1
      simp [verifyRegistration, hsc, hst]
  refine ⟨rfl, Or.inl rfl, hdisj, ?_, ?_, ?_⟩
  · intro hallowed
    rcases hdisj with h | h
    · rw [h]; exact hallowed
    · rw [h]; exact Or.inr rfl
  · intro hver
    rcases hdisj with h | h
    · rw [h, hver]
    · exact h
  · intro res hok
    have hst := (score_ok_fields questions scores verifier now res hok).2.2.2.1
    refine ⟨?_, ?_, ?_, ?_, ?_, ?_, ?_⟩ <;>
      simp [verifyRegistration, hok, hst]

/-- Witness for C6 at the concrete pending registration and one-question
rubric: the act yields an allowed status, here verified. -/
theorem verification_status_machine_witness :
    verification_status_default = "pending"
    ∧ ((verifyRegistration samplePendingReg [sampleQ1] allTenScores
          "admin-1" 9).verification_status
        = samplePendingReg.verification_status
      ∨ (verifyRegistration samplePendingReg [sampleQ1] allTenScores
          "admin-1" 9).verification_status = "verified") :=
  ⟨(verification_status_machine samplePendingReg [sampleQ1] allTenScores
      "admin-1" 9).1,
   (verification_status_machine samplePendingReg [sampleQ1] allTenScores
      "admin-1" 9).2.2.1⟩

/-- Modelled from the spec: agent deletion (the delete operation of the
usePennyekartAgents hook confirmed through the AgentDetailsPanel dialog,
whose warning announces that direct reports become orphaned; the hook is
not among the provided sources) removes only the agent row itself,
leaving every other row untouched. -/
def deleteAgent (allAgents : List Agent) (targetId : String) : List Agent :=
  allAgents.filter (fun a => a.id != targetId)

/-- C8: deleting an agent with children removes exactly that agent:
every other record, the children included, survives byte-identical, so
children are neither deleted nor reparented and retain their
parent_agent_id reference to the deleted agent, now dangling since no
remaining record carries the deleted id. -/
theorem deleteAgent_orphans_children (allAgents : List Agent) (a : Agent)
    (ha : a ∈ allAgents)
    (hchild : ∃ c ∈ allAgents, c.parent_agent_id = some a.id) :
    (∀ b, b ∈ deleteAgent allAgents a.id ↔ b ∈ allAgents ∧ b.id ≠ a.id)
    ∧ (∀ p ∈ deleteAgent allAgents a.id, p.id ≠ a.id)
    ∧ (∀ c ∈ allAgents, c.parent_agent_id = some a.id → c.id ≠ a.id →
        c ∈ deleteAgent allAgents a.id ∧ c.parent_agent_id = some a.id) := by
  have hmem : ∀ b, b ∈ deleteAgent allAgents a.id ↔
      b ∈ allAgents ∧ b.id ≠ a.id := by
    intro b
    simp [deleteAgent, List.mem_filter, bne_iff_ne]
  refine ⟨hmem, ?_, ?_⟩
  · intro p hp
    exact ((hmem p).mp hp).2
  · intro c hc hpar hne
    exact ⟨(hmem c).mpr ⟨hc, hne⟩, hpar⟩

/-- Witness for C8: deleting the sample group leader keeps its pro child
with the dangling parent reference while no remaining agent carries the
deleted id. -/
theorem deleteAgent_orphans_children_witness :
    agentP1 ∈ deleteAgent treeAgents agentG.id
    ∧ agentP1.parent_agent_id = some agentG.id
    ∧ (∀ p ∈ deleteAgent treeAgents agentG.id, p.id ≠ agentG.id) := by
  have h := deleteAgent_orphans_children treeAgents agentG (by decide)
    ⟨agentP1, by decide, by decide⟩
  exact ⟨(h.2.2 agentP1 (by decide) (by decide) (by decide)).1,
    by decide, h.2.1⟩

end Elife
